import Mathlib

/-!
Verification of the `mccmdhl2` Minecraft-Bedrock command parser
(`src/mccmdhl2/nodes.py`, `src/gen_id_table.py`) against its
natural-language specification.

The repository ships only `nodes.py` (grammar and node definitions) and
`gen_id_table.py` under `src/`; the modules `parser.py`, `reader.py`,
`marker.py` and `autocompleter.py` that `nodes.py` imports are not part of
the sources.  Definitions below that embed those missing modules are
documented as `Modelled from the spec:` and follow spec sections 4.A
(Reader), 4.B (Marker), 4.C/4.D (node graph and parse engine).  Every
other definition is a direct translation of the Python source.
-/

namespace MCCmd

/-! ## Versions (nodes.py lines 61-66)

`MCVersion` is a Python 3-tuple of ints; `v <= version` is Python tuple
comparison, which is lexicographic. -/

abbrev MCVersion := Nat × Nat × Nat

/-- Python lexicographic tuple comparison `a <= b` for 3-tuples. -/
def verLE : MCVersion → MCVersion → Bool
  | (a1, a2, a3), (b1, b2, b3) =>
    if a1 ≠ b1 then decide (a1 < b1)
    else if a2 ≠ b2 then decide (a2 < b2)
    else decide (a3 ≤ b3)

/-- Python lexicographic tuple comparison `a < b` for 3-tuples. -/
def verLT : MCVersion → MCVersion → Bool
  | (a1, a2, a3), (b1, b2, b3) =>
    if a1 ≠ b1 then decide (a1 < b1)
    else if a2 ≠ b2 then decide (a2 < b2)
    else decide (a3 < b3)

/-- Source `version_le(version)`: the filter `lambda v: v <= version`. -/
def version_le (version : MCVersion) : MCVersion → Bool :=
  fun v => verLE v version

/-- Source `version_ge(version)`: the filter `lambda v: v >= version`. -/
def version_ge (version : MCVersion) : MCVersion → Bool :=
  fun v => verLE version v

/-- Source `version_lt(version)`: the filter `lambda v: v < version`. -/
def version_lt (version : MCVersion) : MCVersion → Bool :=
  fun v => verLT v version

/-- Spec-side statement of "v ≥ w under lexicographic 3-tuple
comparison", written independently of the source `verLE` so that the
gate theorem compares the two. -/
def SpecLexGE (v w : MCVersion) : Prop :=
  w.1 < v.1 ∨ (v.1 = w.1 ∧ (w.2.1 < v.2.1 ∨ (v.2.1 = w.2.1 ∧ w.2.2 ≤ v.2.2)))

/-- Modelled from the spec: branch version predicates are evaluated as a
gate; a branch with no predicate is always available (spec 4.C, engine
in the missing `parser.py`). -/
def branchAvailable : Option (MCVersion → Bool) → MCVersion → Bool
  | none, _ => true
  | some p, v => p v

/-! ## Selector argument table (nodes.py lines 1032-1090)

`SelectorArg._tree` declares one branch per argument keyword via
`_handle(arg, node, kwds)`; only `haspermission` passes a `version`
keyword.  We record the keyword together with its optional version
filter, in source order. -/

def selectorArgs : List (String × Option (MCVersion → Bool)) :=
  [ ("r", none), ("rm", none),
    ("dx", none), ("dy", none), ("dz", none),
    ("x", none), ("y", none), ("z", none),
    ("scores", none),
    ("tag", none), ("name", none), ("type", none), ("family", none),
    ("rx", none), ("rxm", none), ("ry", none), ("rym", none),
    ("hasitem", none),
    ("l", none), ("lm", none),
    ("m", none), ("c", none),
    ("haspermission", some (version_ge (1, 19, 80))) ]

/-- Availability of the branch for a selector-argument keyword at a
target version (`none` result: no such keyword is declared). -/
def selectorArgAvailable (key : String) (v : MCVersion) : Option Bool :=
  (List.lookup key selectorArgs).map (fun f => branchAvailable f v)

/-! ## BlockSpec root branches (nodes.py lines 467-509)

`BlockSpec._tree` attaches to the parsed block id, in order: the
deprecated integer block-data branch gated `version_le((1,19,70))`, the
bracketed block-state `Series` branch with no gate, the direct end
branch gated `version_ge((1,19,80))`, and - only when a `bs_optional`
node was supplied - a branch to it gated `version_lt((1,19,80))`. -/

inductive BSBranch where
  | blockData
  | blockStates
  | endDirect
  | bsOptional
deriving DecidableEq, Repr

def blockSpecBranches (bsOptionalGiven : Bool) :
    List (BSBranch × Option (MCVersion → Bool)) :=
  [ (.blockData, some (version_le (1, 19, 70))),
    (.blockStates, none),
    (.endDirect, some (version_ge (1, 19, 80))) ]
  ++ (if bsOptionalGiven then [(.bsOptional, some (version_lt (1, 19, 80)))]
      else [])

/-- The branches of the BlockSpec root that survive the version gate at
version `v`. -/
def blockSpecAvailable (bsOptionalGiven : Bool) (v : MCVersion) :
    List BSBranch :=
  ((blockSpecBranches bsOptionalGiven).filter
    (fun b => branchAvailable b.2 v)).map Prod.fst

/-! ## Reader

Modelled from the spec: `reader.py` is not among the sources.  Spec 4.A:
the Reader holds the source and a cursor; `read_word` is a greedy run of
characters not in `TERMINATORS` ({space, newline, carriage return, EOF})
and may return empty; `read_int` is standard decimal parsing with
`SIGNS = {+, -}`; `is_line_end` is true for newline, carriage return and
EOF.  Positions are modelled as the offset of the cursor within the
line (spec 3: marks store half-open `[begin, end)` spans). -/

structure Reader where
  s : List Char
  pos : Nat
deriving Repr, DecidableEq

def mkReader (src : String) : Reader := ⟨src.toList, 0⟩

/-- Modelled from the spec: `TERMINATORS` = {space, `\n`, `\r`, EOF};
EOF is represented by the end of the character list. -/
def isTerminator (c : Char) : Bool :=
  c = ' ' || c = '\n' || c = '\r'

/-- Modelled from the spec: `is_line_end(char)` is true for `\n`, `\r`
and EOF (`none`). -/
def isLineEnd : Option Char → Bool
  | none => true
  | some c => c = '\n' || c = '\r'

def Reader.peek (r : Reader) : Option Char := r.s.head?

/-- Modelled from the spec: `next()` consumes one character (no effect
at EOF). -/
def Reader.advance : Reader → Reader
  | ⟨[], p⟩ => ⟨[], p⟩
  | ⟨_ :: t, p⟩ => ⟨t, p + 1⟩

/-- Greedy split of a character list at the first terminator. -/
def readWordAux : List Char → List Char × List Char
  | [] => ([], [])
  | c :: t =>
    if isTerminator c then ([], c :: t)
    else
      let (w, rest) := readWordAux t
      (c :: w, rest)

/-- Modelled from the spec: `read_word()` returns the greedy run of
non-terminator characters (possibly empty) and advances past it. -/
def Reader.read_word (r : Reader) : String × Reader :=
  let (w, rest) := readWordAux r.s
  (⟨w⟩, ⟨rest, r.pos + w.length⟩)

def digitVal (c : Char) : Nat := c.toNat - '0'.toNat

/-- Greedy split of a character list at the first non-digit. -/
def readDigitsAux : List Char → List Char × List Char
  | [] => ([], [])
  | c :: t =>
    if c.isDigit then
      let (d, rest) := readDigitsAux t
      (c :: d, rest)
    else ([], c :: t)

/-- Modelled from the spec: `read_int()` - optional sign from
`SIGNS = {+, -}` followed by at least one decimal digit; fails
(`ReaderError`) otherwise. -/
def Reader.read_int (r : Reader) : Option (Int × Reader) :=
  let (sign, s1, consumed) :=
    match r.s with
    | '-' :: t => ((-1 : Int), t, 1)
    | '+' :: t => ((1 : Int), t, 1)
    | s => ((1 : Int), s, 0)
  let (ds, rest) := readDigitsAux s1
  if ds.isEmpty then none
  else
    some (sign * (ds.foldl (fun acc c => acc * 10 + digitVal c) 0 : Nat),
          ⟨rest, r.pos + consumed + ds.length⟩)

/-! ## Leaf parse rules translated from nodes.py -/

/-- Source `Keyword._parse` (nodes.py lines 518-520): read a word and
fail unless it equals the declared keyword.  `CommandName(name)` with no
alias is exactly `Keyword(name)` (lines 1644-1652). -/
def parseKeyword (w : String) (r : Reader) : Option Reader :=
  let (word, r') := r.read_word
  if word = w then some r' else none

/-- Source `Enumerate._parse` (nodes.py lines 538-542): read a word and
fail unless it is one of the declared options. -/
def parseEnumerate (options : List String) (r : Reader) : Option Reader :=
  let (word, r') := r.read_word
  if options.contains word then some r' else none

/-- Python `str.lower` restricted to ASCII, which is all the grammar's
keywords use. -/
def lowerChar (c : Char) : Char :=
  if 'A' ≤ c ∧ c ≤ 'Z' then Char.ofNat (c.toNat + 32) else c

def lowerStr (s : String) : String := ⟨s.data.map lowerChar⟩

/-- Source `KeywordCaseInsensitive._parse` (nodes.py lines 894-897):
read a word and fail unless its lowercasing equals the declared
keyword. -/
def parseKeywordCI (w : String) (r : Reader) : Option Reader :=
  let (word, r') := r.read_word
  if lowerStr word = w then some r' else none

/-- Source `NAMESPACEDID` charset (nodes.py line 45). -/
def NAMESPACEDID : List Char :=
  "0123456789:._-abcdefghijklmnopqrstuvwxyz".toList

/-- Source `Word._parse` (nodes.py lines 162-166): the word must be
nonempty. -/
def parseWordNode (r : Reader) : Option (String × Reader) :=
  let (word, r') := r.read_word
  if word = "" then none else some (word, r')

/-- Source `NamespacedId._parse` (nodes.py lines 202-207): a nonempty
word all of whose characters lie in `NAMESPACEDID` (else
`ArgParseFailure "error.syntax.id_invalid"`, which fails the branch). -/
def parseNamespacedId (r : Reader) : Option (String × Reader) :=
  match parseWordNode r with
  | none => none
  | some (word, r') =>
    if word.data.all (fun c => NAMESPACEDID.contains c) then some (word, r')
    else none

/-- Source `QuotedString._parse` body scan (nodes.py lines 222-248):
consume characters after the opening quote, decoding `\\` and `\"`
escapes, until a closing quote; a line end or EOF first means
`ArgParseFailure "error.syntax.unclosed_str"`.  Returns the decoded
characters and the remaining input.  (The font/autocompletion marks the
source pushes are not needed by the claims using this rule.) -/
def quotedScanAux : List Char → Option (List Char × List Char)
  | [] => none
  | c :: t =>
    if c = '"' then some ([], t)
    else if c = '\n' ∨ c = '\r' then none
    else if c = '\\' then
      match t with
      | [] => none
      | c2 :: t2 =>
        if c2 = '\\' ∨ c2 = '"' then
          (quotedScanAux t2).map (fun p => (c2 :: p.1, p.2))
        else
          (quotedScanAux t2).map (fun p => (c :: c2 :: p.1, p.2))
    else
      (quotedScanAux t).map (fun p => (c :: p.1, p.2))

/-- Source `QuotedString._parse` (nodes.py lines 216-256), value level:
an opening quote, the body scan, a closing quote. -/
def parseQuotedString (r : Reader) : Option (String × Reader) :=
  match r.s with
  | '"' :: t =>
    match quotedScanAux t with
    | none => none
    | some (body, rest) =>
      some (⟨body⟩, ⟨rest, r.pos + (r.s.length - rest.length)⟩)
  | _ => none

/-! ## Diagnostics and checkers -/

/-- Spec 3: a diagnostic is `(span, kind, message_key, kwargs)`; spans
are half-open `[begin, end)`.  The kind is determined by the key here;
kwarg values in the claims under study are integers. -/
structure Diagnostic where
  left : Nat
  right : Nat
  key : String
  kwargs : List (String × Int)
deriving Repr, DecidableEq

/-- A `SemanticError` as raised by checkers: a message key plus kwargs
(the span is attached by the engine from the node's span). -/
structure SemanticErr where
  key : String
  kwargs : List (String × Int)
deriving Repr, DecidableEq

/-- Source `Numeric.ranged` (nodes.py lines 105-110): the checker raises
`SemanticError("error.semantic.number.out_of_range", min=min, max=max)`
unless `min <= res <= max`. -/
def rangedChecker (lo hi : Int) (res : Int) : Option SemanticErr :=
  if lo ≤ res ∧ res ≤ hi then none
  else some ⟨"error.semantic.number.out_of_range", [("min", lo), ("max", hi)]⟩

/-! ## Parse engine

Modelled from the spec: `parser.py` is not among the sources.  Spec 4.D:
depth-first traversal, alternatives tried in declared order, a branch
failure restores the snapshot and the next alternative is tried.  We
embed this as continuation-passing parsers over the Reader: a parser
takes the continuation for everything after its node; ordered choice
`altP` tries the second alternative only if the first (including its
whole continuation) fails, which is exactly the engine's backtracking.
Deferred semantic checks (spec 4.B) are threaded as a diagnostic list:
a discarded branch discards the diagnostics it scheduled, and the
accepted path's list is surfaced after the root accepts. -/

abbrev Cont := Reader → List Diagnostic → Option (Reader × List Diagnostic)

abbrev PCd := Cont → Cont

def seqP (p q : PCd) : PCd := fun k => p (q k)

def altP (p q : PCd) : PCd := fun k r ds => p k r ds <|> q k r ds

/-- Modelled from the spec: the terminator rule (spec 4.D): a single
space is consumed, a line end is accepted but not consumed. -/
def termP : PCd := fun k r ds =>
  match r.peek with
  | some ' ' => k r.advance ds
  | c => if isLineEnd c then k r ds else none

/-- Source `Char._parse` (nodes.py lines 83-87). -/
def charP (c : Char) : PCd := fun k r ds =>
  if r.peek = some c then k r.advance ds else none

/-- Source `Chars._parse` (nodes.py lines 596-599): each character in
turn must match. -/
def charsP (cs : String) : PCd := fun k r ds =>
  if cs.data.isPrefixOf r.s then k ⟨r.s.drop cs.length, r.pos + cs.length⟩ ds
  else none

/-- Source `Word._parse` as a combinator. -/
def wordP : PCd := fun k r ds =>
  match parseWordNode r with
  | some (_, r') => k r' ds
  | none => none

/-- Source `QuotedString._parse` as a combinator. -/
def quotedP : PCd := fun k r ds =>
  match parseQuotedString r with
  | some (_, r') => k r' ds
  | none => none

/-- Source `String._tree` (nodes.py lines 273-286): a word branch then a
quoted-string branch. -/
def stringP : PCd := altP wordP quotedP

/-- Source `Integer._parse` (nodes.py lines 126-132) as a combinator. -/
def intP : PCd := fun k r ds =>
  match r.read_int with
  | some (_, r') => k r' ds
  | none => none

/-- Source `Integer().ranged(lo, hi)`: parse an integer, schedule the
`ranged` checker over the integer's span (spec 4.B/4.D: the check is
deferred; threading it through the continuation is equivalent because a
discarded branch discards it). -/
def intRangedP (lo hi : Int) : PCd := fun k r ds =>
  match r.read_int with
  | none => none
  | some (n, r') =>
    match rangedChecker lo hi n with
    | none => k r' ds
    | some e => k r' (ds ++ [⟨r.pos, r'.pos, e.key, e.kwargs⟩])

/-- Source `Enumerate._parse` as a combinator. -/
def enumP (options : List String) : PCd := fun k r ds =>
  match parseEnumerate options r with
  | some r' => k r' ds
  | none => none

/-- Source `Keyword._parse` as a combinator. -/
def kwP (w : String) : PCd := fun k r ds =>
  match parseKeyword w r with
  | some r' => k r' ds
  | none => none

/-- Source `NamespacedId._parse` as a combinator. -/
def nsidP : PCd := fun k r ds =>
  match parseNamespacedId r with
  | some (_, r') => k r' ds
  | none => none

/-- Source `EOL._parse` (nodes.py lines 1625-1629): the line end is
consumed (at EOF `advance` is the identity). -/
def eolP : PCd := fun k r ds =>
  if isLineEnd r.peek then k r.advance ds else none

/-- Source `Invertable._tree` (nodes.py lines 562-581): the bare node
first, then `!` followed by the node. -/
def invertP (p : PCd) : PCd := altP p (seqP (charP '!') p)

/-- Source `_RawIntRange._tree` (nodes.py lines 628-660): an integer
optionally followed by `..` and an optional upper bound, or `..` and an
integer.  (The argument-terminator bookkeeping the source encodes with
`IntegerNoEnd`/`require_arg_end` is omitted: it does not affect the
inputs under study, see the terminator note on `termP`.) -/
def rawIntRangeP : PCd := fun k r ds =>
  (intP (fun r1 ds1 =>
      (charsP ".." (fun r2 ds2 => k r2 ds2 <|> intP k r2 ds2) r1 ds1)
      <|> k r1 ds1) r ds)
  <|> charsP ".." (intP k) r ds

/-- Source `IntRange()` (nodes.py lines 662-663). -/
def intRangeP : PCd := invertP rawIntRangeP

/-! ## Series (nodes.py lines 863-892) and its `scores` /
`haspermission` instantiations (lines 1056-1065, 1079-1088) -/

/-- The possible direct branches of a Series' `begin` node, as built by
`Series._tree`: the content is always a branch; the end node is a
direct branch exactly when `empty_ok` was set. -/
inductive STarget where
  | content
  | endNode
deriving DecidableEq, Repr

/-- Source `Series._tree`: `begin.branch(content ...)` always;
`begin.branch(end_)` only under `if self.empty_ok:`. -/
def seriesBeginTargets (emptyOk : Bool) : List STarget :=
  [.content] ++ (if emptyOk then [.endNode] else [])

/-- After a content item: first the separator branch (looping back to
the content), then the end branch (source `Series._tree` branch
order).  Fuel bounds the separator loop; each step consumes at least
the separator, so input length + 1 suffices. -/
def seriesLoop (sepc endc : Char) (content : PCd) : Nat → PCd
  | 0 => fun _ _ _ => none
  | n + 1 => fun k r ds =>
    content (fun r1 ds1 =>
      (charP sepc (seriesLoop sepc endc content n k) r1 ds1)
      <|> charP endc k r1 ds1) r ds

/-- Source `Series._tree` as a combinator: the begin character, then the
content loop; the direct begin-to-end branch is tried after the content
branch and only when `empty_ok`. -/
def seriesP (emptyOk : Bool) (begc sepc endc : Char) (content : PCd) :
    PCd := fun k r ds =>
  charP begc (fun r1 ds1 =>
    seriesLoop sepc endc content (r1.s.length + 1) k r1 ds1
    <|> (if emptyOk then charP endc k r1 ds1 else none)) r ds

/-- Source `SelectorArg._ScoresArg._tree` (nodes.py lines 985-1000): a
scoreboard name (String), `=`, an integer range. -/
def scoresArgP : PCd := seqP stringP (seqP (charP '=') intRangeP)

/-- Source `SelectorArg._HasPermissionArg._tree` (nodes.py lines
1002-1015): a permission id (a Word, line 326-328), `=`, then
`PermissionState()` = `Enumerate("enabled", "disabled")` (lines
854-861). -/
def hasPermissionArgP : PCd :=
  seqP wordP (seqP (charP '=') (enumP ["enabled", "disabled"]))

/-- The `scores` Series of `SelectorArg._tree` (lines 1056-1065):
braces, comma separator, `_ScoresArg` content, `empty_ok=False`.  The
version argument is passed through untouched: no branch in this subtree
carries a version filter. -/
def scoresSeriesParse (_v : MCVersion) (r : Reader) :
    Option (Reader × List Diagnostic) :=
  seriesP false '{' ',' '}' scoresArgP (fun r' ds => some (r', ds)) r []

/-- The `haspermission` Series of `SelectorArg._tree` (lines 1079-1088):
braces, comma separator, `_HasPermissionArg` content,
`empty_ok=False`. -/
def haspermissionSeriesParse (_v : MCVersion) (r : Reader) :
    Option (Reader × List Diagnostic) :=
  seriesP false '{' ',' '}' hasPermissionArgP (fun r' ds => some (r', ds)) r []

/-- The same construction as the `scores` Series but with
`empty_ok=True`, exhibiting the `begin -> end_` branch that
`Series._tree` adds in that case. -/
def scoresSeriesEmptyOkParse (_v : MCVersion) (r : Reader) :
    Option (Reader × List Diagnostic) :=
  seriesP true '{' ',' '}' scoresArgP (fun r' ds => some (r', ds)) r []

/-! ## The `give` command subtree (nodes.py lines 2314-2337) -/

/-- Source `Selector._tree` (nodes.py lines 1101-1134): branch 1 is a
String (player name), branch 2 is `@` followed by the selector-variable
enumeration and the optional argument series.  Everything after the `@`
is taken as a parameter (`atTail`) because the claim's input
`give @s diamond 32768` is consumed by branch 1 with a succeeding
continuation, so the engine never enters branch 2; the theorem
quantifies over every behaviour of that subtree. -/
def selectorP (atTail : PCd) : PCd := altP stringP (seqP (charP '@') atTail)

/-- Branches following `ItemData(is_test=False)` in `give` (lines
2325-2330): `ItemComponents().finish(EOL)`, then `.finish(EOL)`.  The
`ItemComponents()` JSON subtree is the parameter `icp` and is
universally quantified in the theorem (the claim's input ends at the
EOL before it). -/
def itemDataTailP (icp : PCd) : PCd :=
  altP (seqP termP (seqP icp (seqP termP eolP))) (seqP termP eolP)

/-- Branches following the `give` amount integer (lines 2321-2332):
first `ItemData(is_test=False)` = `Integer().ranged(min=0, max=32767)`
(lines 336-339), then `.finish(EOL)`. -/
def amountTailP (icp : PCd) : PCd :=
  altP (seqP termP (seqP (intRangedP 0 32767) (itemDataTailP icp)))
       (seqP termP eolP)

/-- Source `give` subtree (lines 2314-2337): `CommandName("give")` (a
`Keyword`), a Selector, an `IdItem` (NamespacedId), then
`Integer().ranged(min=1, max=32767)` and its tail.  Spec 4.D terminator
rule between arguments. -/
def giveLineP (atTail icp : PCd) : PCd :=
  seqP (kwP "give") (seqP termP (seqP (selectorP atTail) (seqP termP
    (seqP nsidP (seqP termP (seqP (intRangedP 1 32767)
      (amountTailP icp)))))))

/-- Parse one `give` line from the root: no branch of this subtree
carries a version filter, so the target version is passed through
untouched. -/
def parseGiveLine (_v : MCVersion) (atTail icp : PCd) (src : String) :
    Option (Reader × List Diagnostic) :=
  giveLineP atTail icp (fun r ds => some (r, ds)) (mkReader src) []

/-! ## Id catalogue values and `_DynamicIdSuggestion.resolve`
(nodes.py lines 353-389) -/

/-- A value of the id catalogue (`IdTable.map`): a JSON-like tree of
dicts, lists, strings and nulls (spec 6: leaves are `null`, a string
label, or an array). -/
inductive JVal where
  | dict (entries : List (String × JVal))
  | arr (elems : List JVal)
  | str (s : String)
  | nullv

mutual

/-- Structural equality of catalogue values (Python `==`). -/
def jbeq : JVal → JVal → Bool
  | .dict a, .dict b => jbeqE a b
  | .arr a, .arr b => jbeqL a b
  | .str a, .str b => a == b
  | .nullv, .nullv => true
  | _, _ => false

def jbeqE : List (String × JVal) → List (String × JVal) → Bool
  | [], [] => true
  | (k1, v1) :: t1, (k2, v2) :: t2 => k1 == k2 && jbeq v1 v2 && jbeqE t1 t2
  | _, _ => false

def jbeqL : List JVal → List JVal → Bool
  | [], [] => true
  | v1 :: t1, v2 :: t2 => jbeq v1 v2 && jbeqL t1 t2
  | _, _ => false

end

instance : BEq JVal := ⟨jbeq⟩

/-- A suggestion as far as `resolve` manipulates it.  `isSugInstance`
models the source's `isinstance(s, Suggestion)` test on the original
suggestions (the class hierarchy lives in the missing
`autocompleter.py`); the `note` may be any Python object, modelled as an
optional catalogue value. -/
structure Sug where
  name : String
  writes : String
  note : Option JVal
  isSugInstance : Bool

/-- The walk loop of `resolve` (nodes.py lines 366-371): step into each
key of the path; a non-dict intermediate raises `TypeError` and a
missing key raises `KeyError`, both caught by the source and modelled
as `none`. -/
def walkPath : JVal → List String → Option JVal
  | v, [] => some v
  | .dict l, k :: ks =>
    match List.lookup k l with
    | some v => walkPath v ks
    | none => none
  | _, _ :: _ => none

/-- Python truthiness of a catalogue value. -/
def jTruthy : JVal → Bool
  | .dict l => !l.isEmpty
  | .arr l => !l.isEmpty
  | .str s => !(s == "")
  | .nullv => false

/-- Python `str()` of a catalogue value as used for suggestion names.
Containers are unhashable, so in `resolve` they raise inside
`dict.fromkeys` before `str` is ever applied; those cases are
unreachable there. -/
def pyStr : JVal → String
  | .str s => s
  | .nullv => "None"
  | .dict _ => ""
  | .arr _ => ""

/-- Whether a catalogue value is hashable in Python (usable as a
`dict.fromkeys` key). -/
def isHashable : JVal → Bool
  | .str _ => true
  | .nullv => true
  | _ => false

/-- `dict.fromkeys` key deduplication: keep the first occurrence of
each value. -/
def dedupFirstAux : List JVal → List JVal → List JVal
  | _, [] => []
  | seen, x :: t =>
    if seen.contains x then dedupFirstAux seen t
    else x :: dedupFirstAux (seen ++ [x]) t

def dedupFirst (l : List JVal) : List JVal := dedupFirstAux [] l

/-- Source `_map` note selection (nodes.py line 386):
`arg[1] if arg[1] else self.note`. -/
def entryNote (selfNote : Option JVal) (v : JVal) : Option JVal :=
  if jTruthy v then some v else selfNote

def failedNote : JVal := .str "autocomp.dynamic_id.failed"

/-- Source `_DynamicIdSuggestion.resolve` (nodes.py lines 364-389).  An
`.error ()` result models an uncaught Python exception: the
`assert isinstance(val, (list, dict))` on the handled value, or the
`TypeError` from `dict.fromkeys` on unhashable list elements.  For a
list, `dict.fromkeys` gives every key the value `None`, which is falsy,
so each note falls back to `self.note`. -/
def resolve (tableMap : JVal) (path : List String) (origs : List Sug)
    (handler : JVal → JVal) (selfNote : Option JVal) :
    Except Unit (List Sug) :=
  match walkPath tableMap path with
  | none =>
    .ok (origs.map (fun s =>
      if s.isSugInstance then ⟨s.name, s.writes, some failedNote, s.isSugInstance⟩
      else s))
  | some val =>
    match handler val with
    | .arr elems =>
      if elems.all isHashable then
        .ok ((dedupFirst elems).map (fun kv => ⟨pyStr kv, pyStr kv, selfNote, true⟩))
      else .error ()
    | .dict entries =>
      .ok (entries.map (fun kv => ⟨kv.1, kv.1, entryNote selfNote kv.2, true⟩))
    | _ => .error ()

/-! ## Fonts and marks

Modelled from the spec: the `Font` enumeration, `FontMark` and
autocompletion marks live in the missing `parser.py`/`marker.py`
(spec 3).  Mark positions are column offsets. -/

inductive Font where
  | command | keyword | numeric | string | position | rotation
  | scoreboard | target | tag | comment | meta | default
deriving DecidableEq, Repr

structure FontMark where
  b : Nat
  e : Nat
  font : Font
deriving DecidableEq, Repr

structure AcMark where
  b : Nat
  e : Nat
deriving DecidableEq, Repr

structure MarkLists where
  fonts : List FontMark
  acs : List AcMark
deriving DecidableEq, Repr

/-! ## `_JsonString._parse` (nodes.py lines 1292-1376) -/

/-- Source `_JsonString.ESCAPES` (nodes.py lines 1225-1229). -/
def ESCAPES : Char → Option Char
  | 't' => some '\t'
  | 'n' => some '\n'
  | 'b' => some (Char.ofNat 8)
  | 'f' => some (Char.ofNat 12)
  | 'r' => some '\r'
  | '"' => some '"'
  | '\\' => some '\\'
  | _ => none

/-- Source `_JsonString.HEX` (nodes.py line 1230). -/
def HEX : List Char := "0123456789abcdefABCDEF".toList

def isHex (c : Char) : Bool := HEX.contains c

def hexVal (c : Char) : Nat :=
  if c.isDigit then c.toNat - 48
  else if 'a' ≤ c ∧ c ≤ 'f' then c.toNat - 87
  else c.toNat - 55

/-- `int("".join(hex_), base=16)` for four digits. -/
def hexNum (d1 d2 d3 d4 : Char) : Nat :=
  ((hexVal d1 * 16 + hexVal d2) * 16 + hexVal d3) * 16 + hexVal d4

/-- Source scanning loop of `_JsonString._parse` (nodes.py lines
1298-1338).  State: decoded code points (`chr` may produce surrogates,
so the decoded buffer is kept as code points), the column map, and the
next inner index `i`.  Returns the final state, the character that
ended the loop (`none` for EOF) and the remaining input; `.error`
carries the `ArgParseFailure` message key raised inside the loop. -/
def jsonStrScan :
    List Char → List Nat → List Nat → Nat →
    Except String (List Nat × List Nat × Option Char × List Char)
  | [], chars, colMap, i => .ok (chars, colMap ++ [i], none, [])
  | c :: rest, chars, colMap, i =>
    if c = '"' ∨ c = '\n' ∨ c = '\r' then
      .ok (chars, colMap ++ [i], some c, rest)
    else if c = '\\' then
      match rest with
      | [] =>
        -- char2 is EOF: only the backslash is kept, then the loop
        -- breaks at EOF on the next iteration.
        jsonStrScan [] (chars ++ [92]) (colMap ++ [i]) (i + 1)
      | c2 :: rest2 =>
        match ESCAPES c2 with
        | some esc =>
          jsonStrScan rest2 (chars ++ [esc.toNat]) (colMap ++ [i, i]) (i + 1)
        | none =>
          if c2 = 'u' then
            match rest2 with
            | d1 :: d2 :: d3 :: d4 :: tail =>
              if isHex d1 ∧ isHex d2 ∧ isHex d3 ∧ isHex d4 then
                jsonStrScan tail (chars ++ [hexNum d1 d2 d3 d4])
                  (colMap ++ List.replicate 6 i) (i + 1)
              else .error "error.syntax.json_str_u_escape"
            | _ => .error "error.syntax.json_str_u_escape"
          else
            jsonStrScan rest2 (chars ++ [92, c2.toNat])
              (colMap ++ [i, i + 1]) (i + 2)
    else
      jsonStrScan rest (chars ++ [c.toNat]) (colMap ++ [i]) (i + 1)

/-- Source marking epilogue of `_JsonString._parse` (nodes.py lines
1341-1376), after the body scan has produced the decoded string and
`col_map` and the closing quote was found.  `innerRes` is the outcome
of parsing the inner grammar over the decoded string with the engine of
the missing `parser.py`: `none` models `__get_tree()` returning no
tree, `.error` models a `BaseError` escaping `tree2.parse` or
`trigger_checkers`, `.ok` carries the sub-Marker's marks (given
directly as inner column indices, i.e. `column - 1`).  `_get_loc` uses
`col_map.index`, the first index of the value. -/
def jsonStringFinish (outer : MarkLists) (posBegin posEnd : Nat)
    (decoded : String) (colMap : List Nat)
    (innerRes : Option (Except Unit MarkLists)) : MarkLists × String :=
  let p1 := posBegin + 1
  let p2 := posEnd - 1
  let fonts1 := outer.fonts ++ [⟨posBegin, p1, Font.meta⟩, ⟨p2, posEnd, Font.meta⟩]
  let acs1 := outer.acs ++ [⟨p2, posEnd⟩]
  match innerRes with
  | none => (⟨fonts1 ++ [⟨p1, p2, Font.string⟩], acs1⟩, decoded)
  | some (.error _) => (⟨fonts1 ++ [⟨p1, p2, Font.string⟩], acs1⟩, decoded)
  | some (.ok sub) =>
    (⟨fonts1 ++ sub.fonts.map (fun m =>
        ⟨p1 + colMap.indexOf m.b, p1 + colMap.indexOf m.e, m.font⟩),
      acs1 ++ sub.acs.map (fun m =>
        ⟨p1 + colMap.indexOf m.b, p1 + colMap.indexOf m.e⟩)⟩,
     decoded)

/-! ## `gen_id_table.py`: `handle_biome` (lines 404-416) and
`handle_rp_block` (lines 418-427)

The functions take the result of `read_json` (`none` models a
`json.JSONDecodeError`) and return the produced `IdTable` payload, or
`none` for the bare `return` statements. -/

/-- `dict.fromkeys(keys)`: every key maps to `None`. -/
def dictFromKeys (ks : List String) : JVal :=
  .dict (ks.map (fun k => (k, .nullv)))

/-- Source `handle_biome` (gen_id_table.py lines 404-416): `None` from
`read_json`, a non-dict top level, a missing `"biomes"` key or a
non-dict `"biomes"` value each print a message and `return` (that is,
return `None`); otherwise the biome table is built. -/
def handle_biome (d : Option JVal) : Option JVal :=
  match d with
  | none => none
  | some (.dict entries) =>
    match List.lookup "biomes" entries with
    | some (.dict bs) => some (.dict [("biome", dictFromKeys (bs.map Prod.fst))])
    | _ => none
  | some _ => none

/-- Source `handle_rp_block` (gen_id_table.py lines 418-427): `None`
from `read_json` or a non-dict top level print a message and `return`
(that is, return `None`); otherwise the block table is built. -/
def handle_rp_block (d : Option JVal) : Option JVal :=
  match d with
  | none => none
  | some (.dict entries) => some (.dict [("block", dictFromKeys (entries.map Prod.fst))])
  | some _ => none

/-! ## The cyclic region of the grammar graph

Grammar edges around `_execute` (nodes.py lines 1680-1849, the
`execute` entry at lines 2188-2221, and the command root).  Every other
command subtree hangs off its `CommandName` node and contains no edge
back to `command_root` or `_execute`, so the cycles of the grammar
graph all live in the region modelled here.  Vertices are the nodes of
that region; `cmdKw name` is the `CommandName(name, ...)` node of a
root command. -/

/-- A vertex of the cyclic region, named after the node it stands
for: `"execute"` is the `_execute` join node, `"command_root"` the root
alternation, `"execute_cond"` the `_execute_cond` join node,
`"subcmd:<word>"` an `_ExecuteSubcmd(word)` keyword node and
`"cmd:<name>"` the `CommandName(name, ...)` node of a root command. -/
abbrev ENode := String

/-- The root command names, in source order (the `CommandName(...)`
branches of `command_root`, nodes.py lines 1884-2523). -/
def commandNames : List String :=
  [ "help", "ability", "alwaysday", "camerashake", "clear",
    "clearspawnpoint", "clone", "wsserver", "damage", "deop", "dialogue",
    "difficulty", "effect", "enchant", "event", "execute", "fill", "fog",
    "function", "gamemode", "gamerule", "give", "immutableworld",
    "inputpermission", "kick", "kill", "list", "locate", "loot",
    "tellraw" ]

/-! The edges of the cyclic region, translated from the `.branch(...)`
calls: the `_execute` subtree (lines 1744-1849), `_execute_cond`
(lines 1681-1742), the `execute` command entry with its legacy
pre-1.19.50 form (lines 2188-2221), and the `command_root` dispatch.
Version filters gate traversal but do not remove edges from the
graph. -/

def executeEdges1 : List (ENode × ENode) :=
  [ ("execute", "subcmd:align"), ("execute", "subcmd:anchored"),
    ("execute", "subcmd:as"), ("execute", "subcmd:at"),
    ("execute", "subcmd:facing"), ("execute", "subcmd:in"),
    ("execute", "subcmd:positioned"), ("execute", "subcmd:rotated"),
    ("execute", "subcmd:if"), ("execute", "subcmd:unless"),
    ("execute", "subcmd:run"),
    ("subcmd:align", "swizzle"), ("swizzle", "execute"),
    ("subcmd:anchored", "anchors_enum"), ("anchors_enum", "execute"),
    ("subcmd:as", "sel_as"), ("sel_as", "execute"),
    ("subcmd:at", "sel_at"), ("sel_at", "execute"),
    ("subcmd:facing", "pos3d_facing"), ("pos3d_facing", "execute"),
    ("subcmd:facing", "kw_facing_entity"),
    ("kw_facing_entity", "sel_facing_entity"),
    ("sel_facing_entity", "anchors_facing"),
    ("anchors_facing", "execute") ]

def executeEdges2 : List (ENode × ENode) :=
  [ ("subcmd:in", "dims_enum"), ("dims_enum", "execute"),
    ("subcmd:positioned", "pos3d_positioned"),
    ("pos3d_positioned", "execute"),
    ("subcmd:positioned", "kw_positioned_as"),
    ("kw_positioned_as", "sel_positioned_as"),
    ("sel_positioned_as", "execute"),
    ("subcmd:rotated", "yaw_pitch"), ("yaw_pitch", "execute"),
    ("subcmd:rotated", "kw_rotated_as"),
    ("kw_rotated_as", "sel_rotated_as"), ("sel_rotated_as", "execute"),
    ("subcmd:if", "execute_cond"), ("subcmd:unless", "execute_cond"),
    ("subcmd:run", "command_root"),
    ("execute_cond", "kw_cond_block"),
    ("kw_cond_block", "pos3d_cond_block"),
    ("pos3d_cond_block", "blockspec_cond"),
    ("blockspec_cond", "execute"), ("blockspec_cond", "eol"),
    ("execute_cond", "kw_cond_blocks"),
    ("kw_cond_blocks", "pos3d_cond_blocks1"),
    ("pos3d_cond_blocks1", "pos3d_cond_blocks2"),
    ("pos3d_cond_blocks2", "pos3d_cond_blocks3"),
    ("pos3d_cond_blocks3", "blocks_mode_enum"),
    ("blocks_mode_enum", "execute"), ("blocks_mode_enum", "eol") ]

def executeEdges3 : List (ENode × ENode) :=
  [ ("execute_cond", "kw_cond_entity"),
    ("kw_cond_entity", "sel_cond_entity"),
    ("sel_cond_entity", "execute"), ("sel_cond_entity", "eol"),
    ("execute_cond", "kw_cond_score"),
    ("kw_cond_score", "scorespec1"),
    ("scorespec1", "kw_matches"), ("kw_matches", "int_range"),
    ("int_range", "execute"), ("int_range", "eol"),
    ("scorespec1", "compare_ops"), ("compare_ops", "scorespec2"),
    ("scorespec2", "execute"), ("scorespec2", "eol"),
    ("cmd:execute", "execute"),
    ("cmd:execute", "sel_legacy"), ("sel_legacy", "pos3d_legacy"),
    ("pos3d_legacy", "command_root"),
    ("pos3d_legacy", "kw_detect"), ("kw_detect", "pos3d_detect"),
    ("pos3d_detect", "block_legacy"),
    ("block_legacy", "int_legacy_data"),
    ("int_legacy_data", "command_root") ]

def executeEdges : List (ENode × ENode) :=
  executeEdges1 ++ executeEdges2 ++ executeEdges3
  ++ commandNames.map (fun n => (("command_root" : ENode), "cmd:" ++ n))

/-- Edge test of the modelled region. -/
def edgeB (a b : ENode) : Bool := decide ((a, b) ∈ executeEdges)

/-- `chainB a l`: consecutive vertices of `a :: l` are all edges. -/
def chainB : ENode → List ENode → Bool
  | _, [] => true
  | a, b :: t => edgeB a b && chainB b t

/-- A cycle: a nonempty vertex list whose consecutive vertices are
edges, with an edge from the last vertex back to the first. -/
def IsCycle (p : List ENode) : Prop :=
  p ≠ [] ∧ chainB p.headI (p.tail ++ [p.headI]) = true

instance isCycleDecidable (p : List ENode) : Decidable (IsCycle p) :=
  inferInstanceAs (Decidable (_ ∧ _))

/-- The keyword parsed by a vertex, for the vertices that are `Keyword`
nodes with a fixed word: the eleven `_ExecuteSubcmd(word)` nodes (lines
1677-1678, a `Keyword`), the `_execute_cond` test keywords, the
`entity`/`as`/`detect`/`matches` keywords, and `cmd:<n>` when
`CommandName(n)` has no alias (`help`, `alwaysday` and `wsserver` are
`Enumerate`s, lines 1644-1652). -/
def nodeKeywordTable : List (String × String) :=
  [ ("subcmd:align", "align"), ("subcmd:anchored", "anchored"),
    ("subcmd:as", "as"), ("subcmd:at", "at"),
    ("subcmd:facing", "facing"), ("subcmd:in", "in"),
    ("subcmd:positioned", "positioned"), ("subcmd:rotated", "rotated"),
    ("subcmd:if", "if"), ("subcmd:unless", "unless"),
    ("subcmd:run", "run"),
    ("kw_facing_entity", "entity"), ("kw_positioned_as", "as"),
    ("kw_rotated_as", "as"), ("kw_cond_block", "block"),
    ("kw_cond_blocks", "blocks"), ("kw_cond_entity", "entity"),
    ("kw_cond_score", "score"), ("kw_matches", "matches"),
    ("kw_detect", "detect") ]
  ++ (commandNames.filter
      (fun n => !(n == "help" || n == "alwaysday" || n == "wsserver"))).map
      (fun n => ("cmd:" ++ n, n))

def nodeKeyword (v : ENode) : Option String :=
  List.lookup v nodeKeywordTable

/-- Whether a vertex is a keyword node with a nonempty word. -/
def consumingKw (v : ENode) : Bool :=
  match nodeKeyword v with
  | some w => !(w == "")
  | none => false

/-- A rank certifying that the subgraph induced on the non-keyword
vertices is acyclic: along every edge of `executeEdges` whose two
endpoints both fail `consumingKw`, the rank strictly decreases (checked
edge by edge in `edge_rank`).  Unlisted vertices (the sinks `execute`,
`execute_cond`, `eol` and the alias commands, whose only outgoing edges
lead to keyword vertices or nowhere) have rank 0. -/
def rankTable : List (String × Nat) :=
  [ ("command_root", 1),
    ("swizzle", 1), ("anchors_enum", 1), ("sel_as", 1), ("sel_at", 1),
    ("pos3d_facing", 1), ("sel_facing_entity", 2), ("anchors_facing", 1),
    ("dims_enum", 1), ("pos3d_positioned", 1), ("sel_positioned_as", 1),
    ("yaw_pitch", 1), ("sel_rotated_as", 1),
    ("pos3d_cond_block", 2), ("blockspec_cond", 1),
    ("pos3d_cond_blocks1", 4), ("pos3d_cond_blocks2", 3),
    ("pos3d_cond_blocks3", 2), ("blocks_mode_enum", 1),
    ("sel_cond_entity", 1),
    ("scorespec1", 3), ("compare_ops", 2), ("scorespec2", 1),
    ("int_range", 1),
    ("sel_legacy", 3), ("pos3d_legacy", 2),
    ("pos3d_detect", 4), ("block_legacy", 3), ("int_legacy_data", 2) ]

def rankOf (v : ENode) : Nat := (List.lookup v rankTable).getD 0

/-- The declared selector-argument keywords. -/
def selectorArgKeys : List String := selectorArgs.map Prod.fst

/-! ## Theorems -/

lemma verLE_eq_true_iff (x y : MCVersion) :
    verLE x y = true ↔
      (x.1 < y.1 ∨ (x.1 = y.1 ∧
        (x.2.1 < y.2.1 ∨ (x.2.1 = y.2.1 ∧ x.2.2 ≤ y.2.2)))) := by
  obtain ⟨a, b, c⟩ := x
  obtain ⟨d, e, f⟩ := y
  simp only [verLE]
  split_ifs <;> simp_all

lemma verLT_eq_true_iff (x y : MCVersion) :
    verLT x y = true ↔
      (x.1 < y.1 ∨ (x.1 = y.1 ∧
        (x.2.1 < y.2.1 ∨ (x.2.1 = y.2.1 ∧ x.2.2 < y.2.2)))) := by
  obtain ⟨a, b, c⟩ := x
  obtain ⟨d, e, f⟩ := y
  simp only [verLT]
  split_ifs <;> simp_all

/-- C2: the `haspermission` selector-argument branch carries the
version predicate `version_ge((1,19,80))`, so for every target version
`v` the branch is available if and only if `v ≥ (1,19,80)` under
lexicographic 3-tuple comparison; no selector at a lower version can
take this branch. -/
theorem haspermission_version_gate (v : MCVersion) :
    selectorArgAvailable "haspermission" v = some true ↔
      SpecLexGE v (1, 19, 80) := by
  have hl : List.lookup "haspermission" selectorArgs =
      some (some (version_ge (1, 19, 80))) := rfl
  rw [selectorArgAvailable, hl, Option.map_some']
  rw [branchAvailable, version_ge]
  rw [Option.some_inj]
  rw [verLE_eq_true_iff]
  obtain ⟨a, b, c⟩ := v
  simp only [SpecLexGE]
  omega

/-- C3: in `BlockSpec`, the deprecated integer block-data branch is
gated `version <= (1,19,70)`, the direct-end branch is gated
`version >= (1,19,80)`, and the bracketed block-state branch is
un-gated; hence at every version strictly between 1.19.70 and 1.19.80
(with no `bs_optional` node supplied) the only available branch after
the block id is the bracketed block-state list. -/
theorem blockspec_between_versions (v : MCVersion)
    (h1 : verLT (1, 19, 70) v = true) (h2 : verLT v (1, 19, 80) = true) :
    blockSpecAvailable false v = [BSBranch.blockStates] := by
  obtain ⟨a, b, c⟩ := v
  rw [verLT_eq_true_iff] at h1 h2
  have hA : verLE (a, b, c) (1, 19, 70) = false := by
    rw [← Bool.not_eq_true, verLE_eq_true_iff]
    simp only [not_or, not_and, not_lt, not_le] at h1 h2 ⊢
    omega
  have hB : verLE (1, 19, 80) (a, b, c) = false := by
    rw [← Bool.not_eq_true, verLE_eq_true_iff]
    simp only [not_or, not_and, not_lt, not_le] at h1 h2 ⊢
    omega
  simp [blockSpecAvailable, blockSpecBranches, branchAvailable,
        version_le, version_ge, List.filter, hA, hB]

/-- Witness for C3 at the concrete version 1.19.75. -/
theorem blockspec_between_versions_witness :
    verLT (1, 19, 70) (1, 19, 75) = true ∧
    verLT (1, 19, 75) (1, 19, 80) = true ∧
    blockSpecAvailable false (1, 19, 75) = [BSBranch.blockStates] :=
  ⟨by decide, by decide,
   blockspec_between_versions (1, 19, 75) (by decide) (by decide)⟩

/-- C4: `Series._tree` connects `begin` directly to the end node
exactly when `empty_ok` is set; the `scores` and `haspermission`
selector-argument Series are built with `empty_ok=False`, so the empty
bracketed list `{}` is rejected at every version, while the same
construction with `empty_ok=True` accepts it. -/
theorem series_empty_ok :
    (∀ e : Bool, STarget.endNode ∈ seriesBeginTargets e ↔ e = true)
    ∧ (∀ v : MCVersion, scoresSeriesParse v (mkReader "\x7b\x7d") = none)
    ∧ (∀ v : MCVersion,
        haspermissionSeriesParse v (mkReader "\x7b\x7d") = none)
    ∧ (∀ v : MCVersion,
        scoresSeriesEmptyOkParse v (mkReader "\x7b\x7d") =
          some (⟨[], 2⟩, [])) := by
  refine ⟨fun e => ?_, fun _ => rfl, fun _ => rfl, fun _ => rfl⟩
  cases e <;> simp [seriesBeginTargets]

/-- C1: parsing `give @s diamond 32768\n` at version (1,19,80) emits
exactly one diagnostic, `error.semantic.number.out_of_range` with
kwargs `min=1`, `max=32767`, over the span `[16, 21)` of `32768`; this
holds for every behaviour of the unexplored selector-`@` and
`ItemComponents` subtrees.  Moreover the `ranged` checker of
`Numeric.ranged` yields a `SemanticError` with exactly those `min` and
`max` kwargs precisely when the parsed value lies outside the range. -/
theorem give_amount_out_of_range :
    (∀ atTail icp : PCd,
      parseGiveLine (1, 19, 80) atTail icp "give @s diamond 32768\n" =
        some (⟨[], 22⟩,
          [⟨16, 21, "error.semantic.number.out_of_range",
            [("min", 1), ("max", 32767)]⟩]))
    ∧ ∀ lo hi x : Int,
        (rangedChecker lo hi x =
          some ⟨"error.semantic.number.out_of_range",
                [("min", lo), ("max", hi)]⟩)
          ↔ ¬(lo ≤ x ∧ x ≤ hi) := by
  constructor
  · intro atTail icp
    rfl
  · intro lo hi x
    by_cases h : lo ≤ x ∧ x ≤ hi
    · simp [rangedChecker, h]
    · simp [rangedChecker, h]

/-- C8 counterexample: on an input whose top-level JSON shape is
invalid (a list), `handle_biome` and `handle_rp_block` return `None`
rather than "as if the input were valid". -/
theorem handle_invalid_counterexample :
    handle_biome (some (.arr [])) = none ∧
    handle_rp_block (some (.arr [])) = none :=
  ⟨rfl, rfl⟩

/-- C8 amended: for every input whose JSON is unreadable or whose
top-level shape is invalid, `handle_biome` and `handle_rp_block` print
a message and return `None` (a bare `return`); they return an id table
exactly on well-shaped input. -/
theorem handle_invalid_returns_none :
    (∀ d : Option JVal, handle_biome d = none ↔
      ∀ entries bs, ¬(d = some (.dict entries) ∧
        List.lookup "biomes" entries = some (.dict bs)))
    ∧ (∀ d : Option JVal, handle_rp_block d = none ↔
        ∀ entries, d ≠ some (.dict entries)) := by
  constructor
  · intro d
    match d with
    | none => simp [handle_biome]
    | some (.arr l) => simp [handle_biome]
    | some (.str s) => simp [handle_biome]
    | some .nullv => simp [handle_biome]
    | some (.dict entries) =>
      match hb : List.lookup "biomes" entries with
      | none =>
        simp [handle_biome, hb]
        rintro e1 bs rfl
        simp [hb]
      | some (.dict bs) => simp [handle_biome, hb]
      | some (.arr l) =>
        simp [handle_biome, hb]
        rintro e1 bs rfl
        simp [hb]
      | some (.str s) =>
        simp [handle_biome, hb]
        rintro e1 bs rfl
        simp [hb]
      | some .nullv =>
        simp [handle_biome, hb]
        rintro e1 bs rfl
        simp [hb]
  · intro d
    match d with
    | none => simp [handle_rp_block]
    | some (.arr l) => simp [handle_rp_block]
    | some (.str s) => simp [handle_rp_block]
    | some .nullv => simp [handle_rp_block]
    | some (.dict entries) => simp [handle_rp_block]

/-- C5 counterexample: `resolve` raises (the
`assert isinstance(val, (list, dict))` fails) on an id table in
catalogue format whose resolved value is a `null` leaf, so `resolve`
does not "never raise" over all id tables. -/
theorem resolve_scalar_asserts :
    resolve (.dict [("block", .dict [("stone", .nullv)])])
      ["block", "stone"] [] id none = .error () :=
  rfl

/-- C5 amended: if walking the stored path hits a missing key or a
non-dict intermediate value, `resolve` returns the original
suggestions with each `Suggestion`'s note set to
`autocomp.dynamic_id.failed`; if the walk succeeds, `resolve` returns
one suggestion per entry of the handled catalogue value provided that
value is a dict or a list of hashable entries (per distinct entry for
a list); otherwise the assertion (or `dict.fromkeys`) raises. -/
theorem resolve_degrades_or_enumerates
    (table : JVal) (path : List String) (origs : List Sug)
    (handler : JVal → JVal) (selfNote : Option JVal) :
    (walkPath table path = none →
      resolve table path origs handler selfNote =
        .ok (origs.map (fun s =>
          if s.isSugInstance then
            ⟨s.name, s.writes, some failedNote, s.isSugInstance⟩
          else s)))
    ∧ (∀ val entries, walkPath table path = some val →
        handler val = .dict entries →
        resolve table path origs handler selfNote =
          .ok (entries.map (fun kv =>
            ⟨kv.1, kv.1, entryNote selfNote kv.2, true⟩)))
    ∧ (∀ val elems, walkPath table path = some val →
        handler val = .arr elems → elems.all isHashable = true →
        resolve table path origs handler selfNote =
          .ok ((dedupFirst elems).map (fun kv =>
            ⟨pyStr kv, pyStr kv, selfNote, true⟩)))
    ∧ (∀ val, walkPath table path = some val →
        (match handler val with
         | .dict _ => False
         | .arr _ => False
         | _ => True) →
        resolve table path origs handler selfNote = .error ()) := by
  refine ⟨?_, ?_, ?_, ?_⟩
  · intro h
    simp [resolve, h]
  · intro val entries h1 h2
    simp [resolve, h1, h2]
  · intro val elems h1 h2 h3
    simp [resolve, h1, h2, h3]
  · intro val h1 h2
    match hv : handler val with
    | .dict entries => rw [hv] at h2; exact absurd h2 (by simp)
    | .arr elems => rw [hv] at h2; exact absurd h2 (by simp)
    | .str s => simp [resolve, h1, hv]
    | .nullv => simp [resolve, h1, hv]

/-- Witness for C5's amended theorem: a missing path degrades to the
original suggestion with the failure note, and a resolved string list
yields one suggestion per entry. -/
theorem resolve_degrades_witness :
    resolve (.dict []) ["x"] [⟨"n", "w", none, true⟩] id none =
      .ok ([(⟨"n", "w", none, true⟩ : Sug)].map (fun s =>
        if s.isSugInstance then
          ⟨s.name, s.writes, some failedNote, s.isSugInstance⟩
        else s))
    ∧ resolve (.dict [("k", .arr [.str "a"])]) ["k"] [] id none =
        .ok ((dedupFirst [.str "a"]).map (fun kv =>
          ⟨pyStr kv, pyStr kv, none, true⟩)) :=
  ⟨(resolve_degrades_or_enumerates _ _ _ _ _).1 rfl,
   (resolve_degrades_or_enumerates _ _ _ _ _).2.2.1
     (JVal.arr [.str "a"]) [.str "a"] rfl rfl rfl⟩

/-- C6: in `_JsonString._parse`, when parsing the inner grammar over
the decoded string raises a `BaseError`, or no inner grammar is
defined, none of the sub-Marker's font or autocompletion marks are
appended to the outer Marker; the inner string body span `[p1, p2)` is
appended as a single plain-string `FontMark`, and the decoded string is
still returned. -/
theorem json_string_inner_failure
    (outer : MarkLists) (posBegin posEnd : Nat) (decoded : String)
    (colMap : List Nat) (innerRes : Option (Except Unit MarkLists))
    (h : innerRes = none ∨ innerRes = some (.error ())) :
    jsonStringFinish outer posBegin posEnd decoded colMap innerRes =
      (⟨outer.fonts ++ [⟨posBegin, posBegin + 1, Font.meta⟩,
                        ⟨posEnd - 1, posEnd, Font.meta⟩,
                        ⟨posBegin + 1, posEnd - 1, Font.string⟩],
        outer.acs ++ [⟨posEnd - 1, posEnd⟩]⟩, decoded) := by
  rcases h with rfl | rfl <;> simp [jsonStringFinish]

/-- Witness for C6 at a concrete failing sub-parse. -/
theorem json_string_inner_failure_witness :
    ((none : Option (Except Unit MarkLists)) = none ∨
      (none : Option (Except Unit MarkLists)) = some (.error ())) ∧
    jsonStringFinish ⟨[], []⟩ 3 9 "abc" [0, 1, 2, 3] none =
      (⟨[⟨3, 4, Font.meta⟩, ⟨8, 9, Font.meta⟩, ⟨4, 8, Font.string⟩],
        [⟨8, 9⟩]⟩, "abc") :=
  ⟨Or.inl rfl,
   by simpa using
     json_string_inner_failure ⟨[], []⟩ 3 9 "abc" [0, 1, 2, 3] none
       (Or.inl rfl)⟩

/-- C7: in the `_JsonString._parse` scan, a `\u` escape is accepted if
and only if exactly four hexadecimal digits follow: on acceptance the
four digits decode to one code point and exactly six column-map entries
with the same inner index are appended; otherwise
`ArgParseFailure "error.syntax.json_str_u_escape"` is raised. -/
theorem json_u_escape (chars colMap : List Nat) (i : Nat)
    (rest : List Char) :
    (∀ d1 d2 d3 d4 tail, rest = d1 :: d2 :: d3 :: d4 :: tail →
        (isHex d1 ∧ isHex d2 ∧ isHex d3 ∧ isHex d4) →
        jsonStrScan ('\\' :: 'u' :: rest) chars colMap i =
          jsonStrScan tail (chars ++ [hexNum d1 d2 d3 d4])
            (colMap ++ List.replicate 6 i) (i + 1))
    ∧ ((match rest with
        | d1 :: d2 :: d3 :: d4 :: _ =>
          ¬(isHex d1 ∧ isHex d2 ∧ isHex d3 ∧ isHex d4)
        | _ => True) →
        jsonStrScan ('\\' :: 'u' :: rest) chars colMap i =
          Except.error "error.syntax.json_str_u_escape") := by
  constructor
  · rintro d1 d2 d3 d4 tail rfl hhex
    rw [show jsonStrScan ('\\' :: 'u' :: d1 :: d2 :: d3 :: d4 :: tail)
            chars colMap i =
          (if isHex d1 ∧ isHex d2 ∧ isHex d3 ∧ isHex d4 then
            jsonStrScan tail (chars ++ [hexNum d1 d2 d3 d4])
              (colMap ++ List.replicate 6 i) (i + 1)
          else Except.error "error.syntax.json_str_u_escape") from rfl]
    rw [if_pos hhex]
  · intro hbad
    match rest, hbad with
    | [], _ => rfl
    | [d1], _ => rfl
    | [d1, d2], _ => rfl
    | [d1, d2, d3], _ => rfl
    | d1 :: d2 :: d3 :: d4 :: tail, hbad =>
      rw [show jsonStrScan ('\\' :: 'u' :: d1 :: d2 :: d3 :: d4 :: tail)
              chars colMap i =
            (if isHex d1 ∧ isHex d2 ∧ isHex d3 ∧ isHex d4 then
              jsonStrScan tail (chars ++ [hexNum d1 d2 d3 d4])
                (colMap ++ List.replicate 6 i) (i + 1)
            else Except.error "error.syntax.json_str_u_escape") from rfl]
      rw [if_neg hbad]

/-- Witness for C7: `A` is accepted, decoding to code point 65
with six column-map entries; `\uz041` raises the escape error. -/
theorem json_u_escape_witness :
    jsonStrScan ('\\' :: 'u' :: '0' :: '0' :: '4' :: '1' :: []) [] [] 0 =
      jsonStrScan [] ([] ++ [hexNum '0' '0' '4' '1'])
        ([] ++ List.replicate 6 0) 1
    ∧ jsonStrScan ('\\' :: 'u' :: 'z' :: '0' :: '4' :: '1' :: []) [] [] 0 =
        Except.error "error.syntax.json_str_u_escape" :=
  ⟨(json_u_escape [] [] 0 _).1 '0' '0' '4' '1' [] rfl (by decide),
   (json_u_escape [] [] 0 _).2 (by decide)⟩

/-- C10: selector-argument keyword matching is case-insensitive: for
every declared key, `KeywordCaseInsensitive._parse` accepts the word at
the reader if and only if its lowercasing equals the key. -/
theorem selector_key_case_insensitive (key : String)
    (_hk : key ∈ selectorArgKeys) (r : Reader) :
    (∃ r2, parseKeywordCI key r = some r2) ↔
      lowerStr (r.read_word).1 = key := by
  cases hw : r.read_word with
  | mk word r2 =>
    by_cases hc : lowerStr word = key
    · simp [parseKeywordCI, hw, hc]
    · simp [parseKeywordCI, hw, hc]

/-- Witness for C10: `tag` is a declared key and `TAG` (followed by a
terminator) is accepted for it. -/
theorem selector_key_case_insensitive_witness :
    "tag" ∈ selectorArgKeys ∧
    ((∃ r2, parseKeywordCI "tag" (mkReader "TAG x") = some r2) ↔
      lowerStr ((mkReader "TAG x").read_word).1 = "tag") :=
  ⟨by decide,
   selector_key_case_insensitive "tag" (by decide) (mkReader "TAG x")⟩

lemma readWordAux_len (l : List Char) :
    (readWordAux l).1.length + (readWordAux l).2.length = l.length := by
  induction l with
  | nil => simp [readWordAux]
  | cons c t ih =>
    simp only [readWordAux]
    split
    · simp
    · cases h : readWordAux t with
      | mk w rest =>
        rw [h] at ih
        simp only [h]
        simp at ih ⊢
        omega

/-- A successful `Keyword._parse` on a nonempty keyword consumes at
least one character. -/
lemma parseKeyword_consumes (w : String) (hw : w ≠ "") (r r2 : Reader)
    (h : parseKeyword w r = some r2) : r2.s.length < r.s.length := by
  unfold parseKeyword Reader.read_word at h
  cases hr : readWordAux r.s with
  | mk word rest =>
    rw [hr] at h
    simp only [] at h
    split at h
    · next heq =>
      cases h
      have hl := readWordAux_len r.s
      rw [hr] at hl
      simp only [] at hl
      have hne : word ≠ [] := by
        intro h0
        apply hw
        rw [← heq, h0]
      have hpos : 0 < word.length := List.length_pos.mpr hne
      simp only []
      omega
    · exact absurd h (by simp)

set_option maxRecDepth 8192 in
/-- Each edge of the modelled region either touches a keyword vertex
or strictly decreases the rank, checked edge by edge over the whole
edge list. -/
lemma edge_rank (a b : ENode) (h : edgeB a b = true) :
    consumingKw a = true ∨ consumingKw b = true ∨ rankOf b < rankOf a := by
  have h2 : (a, b) ∈ executeEdges := of_decide_eq_true h
  have hall : ∀ e ∈ executeEdges,
      consumingKw e.1 = true ∨ consumingKw e.2 = true ∨
        rankOf e.2 < rankOf e.1 := by decide
  exact hall (a, b) h2

/-- Along a chain all of whose vertices are non-keyword vertices, the
rank strictly decreases, so every element of the chain's tail has a
smaller rank than its head. -/
lemma chainB_rank_lt :
    ∀ (l : List ENode) (a : ENode), chainB a l = true →
      (∀ x ∈ a :: l, consumingKw x = false) →
      ∀ x ∈ l, rankOf x < rankOf a := by
  intro l
  induction l with
  | nil =>
    intro a _ _ x hx
    exact absurd hx (List.not_mem_nil x)
  | cons b t ih =>
    intro a h hnc x hx
    simp only [chainB, Bool.and_eq_true] at h
    have hab : rankOf b < rankOf a := by
      rcases edge_rank a b h.1 with hca | hcb | hlt
      · rw [hnc a (List.mem_cons_self _ _)] at hca
        exact Bool.noConfusion hca
      · rw [hnc b (List.mem_cons_of_mem _ (List.mem_cons_self _ _))] at hcb
        exact Bool.noConfusion hcb
      · exact hlt
    rcases List.mem_cons.mp hx with rfl | hx2
    · exact hab
    · have hnc2 : ∀ y ∈ b :: t, consumingKw y = false := fun y hy =>
        hnc y (List.mem_cons_of_mem _ hy)
      exact lt_trans (ih b h.2 hnc2 x hx2) hab

/-- C9: every cycle of the grammar graph's cyclic region - the
subcommand branches returning to `_execute` as well as the `run` and
legacy-`execute` branches returning to the command root - contains a
vertex that is a `Keyword` node whose parse, whenever it succeeds,
consumes at least one character of input; hence no parse can loop
forever on an empty-accepting cycle. -/
theorem execute_cycle_consumes (p : List ENode) (hc : IsCycle p) :
    ∃ v ∈ p, ∃ w, nodeKeyword v = some w ∧
      ∀ (r r2 : Reader), parseKeyword w r = some r2 →
        r2.s.length < r.s.length := by
  obtain ⟨v, rest, rfl⟩ : ∃ v rest, p = v :: rest := by
    cases p with
    | nil => exact absurd rfl hc.1
    | cons a b => exact ⟨a, b, rfl⟩
  have hcons : ∃ x ∈ v :: rest, consumingKw x = true := by
    by_contra hno
    have hchain : chainB v (rest ++ [v]) = true := hc.2
    have hnc : ∀ x ∈ v :: (rest ++ [v]), consumingKw x = false := by
      intro x hx
      have hxp : x ∈ v :: rest := by
        rcases List.mem_cons.mp hx with rfl | hx2
        · exact List.mem_cons_self _ _
        · rcases List.mem_append.mp hx2 with h | h
          · exact List.mem_cons_of_mem _ h
          · simp at h
            simp [h]
      cases hcw : consumingKw x with
      | false => rfl
      | true => exact absurd ⟨x, hxp, hcw⟩ hno
    exact absurd (chainB_rank_lt (rest ++ [v]) v hchain hnc v (by simp))
      (lt_irrefl _)
  obtain ⟨v2, hvp, hck⟩ := hcons
  cases hk : nodeKeyword v2 with
  | none => simp [consumingKw, hk] at hck
  | some w =>
    simp only [consumingKw, hk] at hck
    have hw : w ≠ "" := by simpa using hck
    exact ⟨v2, hvp, w, hk, fun r r2 hp => parseKeyword_consumes w hw r r2 hp⟩

/-- Witness for C9, on the legacy cycle
`cmd:execute -> Selector -> Pos3D -> command_root -> cmd:execute`
(which avoids the `_execute` vertex) and on the cycle
`_execute -> align -> Swizzle -> _execute`. -/
theorem execute_cycle_consumes_witness :
    IsCycle ["cmd:execute", "sel_legacy", "pos3d_legacy", "command_root"] ∧
    (∃ v ∈ (["cmd:execute", "sel_legacy", "pos3d_legacy",
             "command_root"] : List ENode),
      ∃ w, nodeKeyword v = some w ∧
        ∀ (r r2 : Reader), parseKeyword w r = some r2 →
          r2.s.length < r.s.length) ∧
    IsCycle ["execute", "subcmd:align", "swizzle"] ∧
    (∃ v ∈ (["execute", "subcmd:align", "swizzle"] : List ENode),
      ∃ w, nodeKeyword v = some w ∧
        ∀ (r r2 : Reader), parseKeyword w r = some r2 →
          r2.s.length < r.s.length) :=
  ⟨by decide,
   execute_cycle_consumes
     ["cmd:execute", "sel_legacy", "pos3d_legacy", "command_root"]
     (by decide),
   by decide,
   execute_cycle_consumes ["execute", "subcmd:align", "swizzle"]
     (by decide)⟩

end MCCmd
